import Mathlib

/-
Verification development for the consul-port-redirector HTTP redirect server
(main.go). The Go program is shallowly embedded: every definition below is a
direct translation of the corresponding Go function, working over explicit
character lists so that all definitions are executable and kernel-reducible.
Machine integers (ports) are modelled as Nat; Go functions that can fail
(net/url parsing, the out-of-bounds string slice in redirectToCustomRoute)
return Except values.
-/

namespace ConsulPortRedirector

/-! ### Character-list models of the Go strings functions

Lean core String functions are not kernel-reducible, so the handful of
strings-package functions used by main.go are re-implemented here by
structural recursion over the underlying character lists. Each definition
states which Go function it models.
-/

/-- listStartsWith pre l is true when pre is a prefix of l
(chars compared with ==). Models strings.HasPrefix on character lists. -/
def listStartsWith : List Char → List Char → Bool
  | [], _ => true
  | _ :: _, [] => false
  | a :: as, b :: bs => a == b && listStartsWith as bs

/-- splitFirstChars sep l finds the first occurrence of the (non-empty)
separator sep in l and returns the characters before and after it;
none when sep does not occur in l. Shared engine for the strings.SplitN,
strings.SplitAfterN, strings.Contains and strings.Count uses in main.go. -/
def splitFirstChars (sep : List Char) : List Char → Option (List Char × List Char)
  | [] => none
  | c :: cs =>
    if listStartsWith sep (c :: cs) then some ([], (c :: cs).drop sep.length)
    else match splitFirstChars sep cs with
      | some (a, b) => some (c :: a, b)
      | none => none

/-- goSplitN2 s sep models strings.SplitN(s, sep, 2) for a non-empty
separator: the list [s] when sep does not occur in s, else the part
before the first occurrence followed by everything after it. -/
def goSplitN2 (s sep : String) : List String :=
  match splitFirstChars sep.data s.data with
  | some (a, b) => [String.mk a, String.mk b]
  | none => [s]

/-- goContains s sub models strings.Contains(s, sub) for a non-empty sub
(every call site in main.go passes a non-empty literal); it also models
the strings.Count(s, sub) > 0 test in parseConsulAddress. -/
def goContains (s sub : String) : Bool :=
  (splitFirstChars sub.data s.data).isSome

/-- afterFirst s sep models strings.SplitAfterN(s, sep, 2)[1], used in
redirectToCustomRoute under a strings.Contains(s, sep) guard: the part of
s after the first occurrence of sep. -/
def afterFirst (s sep : String) : String :=
  match splitFirstChars sep.data s.data with
  | some (_, b) => String.mk b
  | none => ""

/-- goStartsWith s pre models strings.HasPrefix(s, pre). -/
def goStartsWith (s pre : String) : Bool :=
  listStartsWith pre.data s.data

/-- goEndsWith s suf models strings.HasSuffix(s, suf). -/
def goEndsWith (s suf : String) : Bool :=
  listStartsWith suf.data.reverse s.data.reverse

/-- goTrimPre s pre models strings.TrimPrefix(s, pre): s with the leading
pre removed when present, else s unchanged. -/
def goTrimPre (s pre : String) : String :=
  if goStartsWith s pre then String.mk (s.data.drop pre.data.length) else s

/-- goTrimSuffix s suf models strings.TrimSuffix(s, suf): s with the
trailing suf removed when present, else s unchanged. -/
def goTrimSuffix (s suf : String) : String :=
  if goEndsWith s suf then String.mk (s.data.take (s.data.length - suf.data.length)) else s

/-- splitAllChar sep l splits l at every occurrence of the separator
character. Models strings.Split(s, sep) for a one-character separator
(main.go only splits on the one-character separator slash). -/
def splitAllChar (sep : Char) : List Char → List (List Char)
  | [] => [[]]
  | c :: cs =>
    if c == sep then [] :: splitAllChar sep cs
    else match splitAllChar sep cs with
      | r :: rs => (c :: r) :: rs
      | [] => [[c]]

/-- goSplitSlash s models strings.Split(s, slash-separator), the call in
tryCustomRoutesForHostname that computes pathSegments. -/
def goSplitSlash (s : String) : List String :=
  (splitAllChar '/' s.data).map String.mk

/-- replaceFuel needle repl fuel l replaces every occurrence of the
non-empty needle in l by repl; fuel is an upper bound on the number of
characters still to scan (each step consumes at least one character, so
fuel = l.length is always sufficient). -/
def replaceFuel (needle repl : List Char) : Nat → List Char → List Char
  | _, [] => []
  | 0, s => s
  | fuel + 1, c :: cs =>
    if listStartsWith needle (c :: cs) then
      repl ++ replaceFuel needle repl fuel ((c :: cs).drop needle.length)
    else c :: replaceFuel needle repl fuel cs

/-- goReplaceAll s old new models strings.ReplaceAll(s, old, new) for a
non-empty old (main.go only replaces the non-empty literal arg token). -/
def goReplaceAll (s old new : String) : String :=
  String.mk (replaceFuel old.data new.data s.data.length s.data)

/-- lowerChar models the effect of strings.ToLower on one character,
restricted to ASCII letters (the scheme tags http and https that
guessScheme compares against are ASCII). -/
def lowerChar (c : Char) : Char :=
  if 'A'.toNat ≤ c.toNat && c.toNat ≤ 'Z'.toNat then Char.ofNat (c.toNat + 32) else c

/-- goToLower s models strings.ToLower(s) restricted to ASCII input. -/
def goToLower (s : String) : String :=
  String.mk (s.data.map lowerChar)

/-- charsLt is bytewise-lexicographic comparison of character lists by
code point, the order Go uses for string comparison with the less-than
operator (UTF-8 byte order coincides with code-point order). -/
def charsLt : List Char → List Char → Bool
  | [], [] => false
  | [], _ :: _ => true
  | _ :: _, [] => false
  | a :: as, b :: bs =>
    a.toNat < b.toNat || (a.toNat == b.toNat && charsLt as bs)

/-- goStrLt a b models the Go string comparison a < b. -/
def goStrLt (a b : String) : Bool :=
  charsLt a.data b.data

/-! ### URLs -/

/-- GoURL models the components of a net/url URL value that main.go reads
or writes: Scheme, Host (with any embedded port), Path and RawQuery. -/
structure GoURL where
  scheme : String
  host : String
  path : String
  rawQuery : String
deriving DecidableEq

/-- UrlError models the failure of net/url Parse. -/
inductive UrlError where
  | invalidEscape
deriving DecidableEq

deriving instance DecidableEq for Except

/-- isHexDigit c is true for an ASCII hexadecimal digit, as accepted by
the percent-escape decoder of net/url. -/
def isHexDigit (c : Char) : Bool :=
  ('0'.toNat ≤ c.toNat && c.toNat ≤ '9'.toNat)
  || ('a'.toNat ≤ c.toNat && c.toNat ≤ 'f'.toNat)
  || ('A'.toNat ≤ c.toNat && c.toNat ≤ 'F'.toNat)

/-- validEscapes l is true when every percent sign in l is followed by two
hexadecimal digits; net/url Parse fails on a URL violating this. -/
def validEscapes : List Char → Bool
  | [] => true
  | '%' :: rest =>
    match rest with
    | a :: b :: rest2 => isHexDigit a && isHexDigit b && validEscapes rest2
    | _ => false
  | _ :: rest => validEscapes rest

/-- urlParse models net/url Parse restricted to the URL shapes that occur
as custom-route templates in main.go: an optional scheme followed by the
separator colon-slash-slash, an authority up to the first slash or
question mark, a path up to the question mark, and a raw query (no
userinfo, fragment or opaque part). Parsing fails exactly on an invalid
percent escape, the error case net/url reports for such template strings. -/
def urlParse (s : String) : Except UrlError GoURL :=
  if validEscapes s.data = false then .error .invalidEscape
  else
    match splitFirstChars "://".data s.data with
    | none =>
      match splitFirstChars ['?'] s.data with
      | some (p, q) => .ok ⟨"", "", String.mk p, String.mk q⟩
      | none => .ok ⟨"", "", s, ""⟩
    | some (sch, rest) =>
      let hostPathQuery :=
        match splitFirstChars ['?'] rest with
        | some (hp, q) => (hp, q)
        | none => (rest, [])
      let host := hostPathQuery.1.takeWhile (fun c => !(c == '/'))
      let path := hostPathQuery.1.dropWhile (fun c => !(c == '/'))
      .ok ⟨String.mk sch, String.mk host, String.mk path, String.mk hostPathQuery.2⟩

/-- buildUrlWithPort models the Go function of the same name: it copies
the original URL (the Go code round-trips it through String and Parse,
which is the identity on these components), then overrides the scheme,
and the host, appending a colon and the port when the port is non-zero. -/
def buildUrlWithPort (hostname : String) (origUrl : GoURL) (scheme : String) (port : Nat) : GoURL :=
  { scheme := scheme
    host := if port ≠ 0 then hostname ++ ":" ++ toString port else hostname
    path := origUrl.path
    rawQuery := origUrl.rawQuery }

/-! ### Hostname parsing -/

/-- getHostname models the Go function of the same name:
strings.SplitN(host, colon-separator, 2)[0]. -/
def getHostname (host : String) : String :=
  (goSplitN2 host ":").headD host

/-- segmentConsulAddress is the segmentation stage of parseConsulAddress
(main.go lines 413-421): split the hostname once on the .service. marker,
keep the left part; when that part contains a dot, split it once on the
dot and strip a leading underscore from each half, giving the service
name and the port type. -/
def segmentConsulAddress (hostname : String) : String × String :=
  let serviceSplit := goSplitN2 hostname ".service."
  let svcName := serviceSplit.headD hostname
  if goContains svcName "." then
    let parts := goSplitN2 svcName "."
    (goTrimPre (parts.headD "") "_", goTrimPre (parts.getD 1 "") "_")
  else
    (svcName, "")

/-- parseConsulAddress models the Go function of the same name: the
segmentation above, then the guard of main.go lines 423-426 that refuses
the result when the port-type segment contains a dot (do not parse IP
addresses), returning the empty pair instead. -/
def parseConsulAddress (hostname : String) : String × String :=
  let seg := segmentConsulAddress hostname
  if goContains seg.2 "." then ("", "") else seg

/-! ### Configuration, requests, directory -/

/-- Config models the process-wide flag values and the decoded
customRoutes map of main.go. The route map is carried as an association
list with distinct keys; lookup is by key equality, matching Go map
indexing. -/
structure Config where
  nomadUIHostname : String
  consulUIHostname : String
  redirectToNomadUI : Bool
  hostnameSuffix : String
  customRoutes : List (String × String)

/-- routeLookup models Go map indexing s.customRoutes[key] with the comma
ok form: the value stored at the key, if present. -/
def routeLookup (routes : List (String × String)) (key : String) : Option String :=
  (routes.find? (fun kv => kv.1 == key)).map (fun kv => kv.2)

/-- Request models the parts of an inbound http.Request that main.go
reads: the Host header, the URL path and the URL raw query. -/
structure Request where
  host : String
  path : String
  rawQuery : String

/-- Request.url is the req.URL value as seen by main.go: a URL with empty
scheme and host carrying the request path and raw query. -/
def Request.url (req : Request) : GoURL :=
  ⟨"", "", req.path, req.rawQuery⟩

/-- CatalogService models one entry of the Consul catalog response
consumed by queryConsulForHostname: the node name, the service tags and
the service port. -/
structure CatalogService where
  node : String
  serviceTags : List String
  servicePort : Nat
deriving DecidableEq

/-- ConsulError models a failed Consul catalog query (network or lookup
failure of the external collaborator). -/
inductive ConsulError where
  | network
deriving DecidableEq

/-- ConsulOracle is the interface to the external Consul catalog: given a
service name and a port-type tag it returns the catalog entries, or an
error. main.go calls it through s.consul.Catalog().Service. -/
def ConsulOracle : Type :=
  String → String → Except ConsulError (List CatalogService)

/-- RedirectOption corresponds to the Go struct of the same name: a
Consul service and port pair which can be redirected to. -/
structure RedirectOption where
  hostname : String
  tags : List String
  port : Nat
deriving DecidableEq

/-- mkOption is the per-service construction inside the loop of
queryConsulForHostname: the node becomes the hostname, tags and port are
copied. -/
def mkOption (svc : CatalogService) : RedirectOption :=
  ⟨svc.node, svc.serviceTags, svc.servicePort⟩

/-- guessScheme models the Go method of the same name: the first tag
whose lower-cased form is http or https decides the scheme, defaulting
to http. -/
def guessScheme (tags : List String) : String :=
  match tags.find? (fun t => goToLower t == "http" || goToLower t == "https") with
  | some t => goToLower t
  | none => "http"

/-- RedirectOption.BuildURL models the Go method of the same name. -/
def RedirectOption.BuildURL (r : RedirectOption) (hostname : String) (origUrl : GoURL) : GoURL :=
  buildUrlWithPort hostname origUrl (guessScheme r.tags) r.port

/-- goLess is the comparator passed to sort.Slice in
queryConsulForHostname, exactly as written in main.go line 406:
options[i].Hostname < options[j].Hostname && options[i].Port < options[j].Port. -/
def goLess (a b : RedirectOption) : Bool :=
  goStrLt a.hostname b.hostname && decide (a.port < b.port)

/-- insRev less x l inserts x into the reversed prefix l: x moves past
every element it is less-than and settles before the first element it is
not less-than. This is the inner loop of the insertion sort in the Go
sort package (compare against the previous element, swap while less). -/
def insRev (less : α → α → Bool) (x : α) : List α → List α
  | [] => [x]
  | y :: ys => if less x y then y :: insRev less x ys else x :: y :: ys

/-- goSortInsert is one outer-loop step of the Go insertion sort: the new
element sinks from the right end of the already-processed prefix. -/
def goSortInsert (less : α → α → Bool) (sorted : List α) (x : α) : List α :=
  (insRev less x sorted.reverse).reverse

/-- goSortSlice models sort.Slice as called in queryConsulForHostname.
For slices of at most six elements the Go sort runs exactly this
insertion sort; for longer slices Go prepends a gap-six shell pass, but
every variant produces a permutation of its input (Go sorting only swaps
elements), which is the only property the theorems below use for longer
lists. -/
def goSortSlice (less : α → α → Bool) (l : List α) : List α :=
  l.foldl (goSortInsert less) []

/-- queryConsulForHostname models the Go function of the same name:
re-parse the hostname, return an empty result without querying when both
components are empty, otherwise query the catalog, turn each service into
a RedirectOption, and sort with the goLess comparator. -/
def queryConsulForHostname (consul : ConsulOracle) (hostname : String) :
    Except ConsulError (List RedirectOption) :=
  let p := parseConsulAddress hostname
  if p.1 = "" ∧ p.2 = "" then .ok []
  else
    match consul p.1 p.2 with
    | .error e => .error e
    | .ok services => .ok (goSortSlice goLess (services.map mkOption))

/-! ### Custom routes -/

/-- RouteError models the two abnormal outcomes of redirectToCustomRoute:
the template fails net/url parsing (returned as an error and rendered as
a 500 page), or the slice expression Path[1:] is evaluated on an empty
path, which in Go is an out-of-range slice panic. -/
inductive RouteError where
  | templateParseError
  | slicePanic
deriving DecidableEq

/-- redirectToCustomRoute models the Go function of the same name: parse
the template URL; rebuild the request URL on the template host and
scheme; when the route key contains a slash, trim the key remainder from
the front of the path; when the template contains the arg token,
substitute the remaining path (minus its first character — the Go code
slices Path[1:], which panics when the path is empty) into the template
path and query; otherwise, when the template path is longer than one
character, prepend it to the path. -/
def redirectToCustomRoute (req : Request) (hostnamePath customUrl : String) :
    Except RouteError GoURL :=
  match urlParse customUrl with
  | .error _ => .error .templateParseError
  | .ok parsedUrl =>
    let redirUrl := buildUrlWithPort parsedUrl.host req.url parsedUrl.scheme 0
    let redirUrl :=
      if goContains hostnamePath "/" then
        { redirUrl with path := goTrimPre redirUrl.path ("/" ++ afterFirst hostnamePath "/") }
      else redirUrl
    if goContains customUrl "$arg$" then
      if redirUrl.path = "" then .error .slicePanic
      else
        let argValue := String.mk (redirUrl.path.data.drop 1)
        .ok { redirUrl with
                path := goReplaceAll parsedUrl.path "$arg$" argValue
                rawQuery := goReplaceAll parsedUrl.rawQuery "$arg$" argValue }
    else if 1 < parsedUrl.path.data.length then
      .ok { redirUrl with path := parsedUrl.path ++ redirUrl.path }
    else
      .ok redirUrl

/-- ListEntry is one rendered line of the multi-candidate listing page:
the link URL, the suffixed hostname, the port and the tags, exactly the
data the loop in ServeHTTP writes for each option. -/
structure ListEntry where
  url : GoURL
  fullHostname : String
  port : Nat
  tags : List String
deriving DecidableEq

/-- Decision is the observable outcome of ServeHTTP for one request: which
branch ran and the data it writes. customPanic records the aborting
out-of-range slice panic, on which no response is written at all. -/
inductive Decision where
  | health
  | metrics
  | customRedirect (url : GoURL)
  | customRouteError (key : String)
  | customPanic (key : String)
  | nomadUIRedirect (url : GoURL)
  | unparseableHelp (hostname : String)
  | consulError (hostname : String)
  | singleRedirect (url : GoURL)
  | noResults (svcName svcType hostname : String)
  | candidateList (svcName svcType : String) (entries : List ListEntry) (hostname : String)
deriving DecidableEq

/-- Decision.status is the HTTP status each branch sends, following the
net/http rule that the first Write without a prior WriteHeader sends an
implicit 200. The unparseable-hostname branch of ServeHTTP (lines
136-148) writes its body without ever calling WriteHeader, so its status
is 200; the zero-results branch calls WriteHeader(404); redirects send
307; error pages call WriteHeader(500); a panicked request sends no
status at all (none). -/
def Decision.status : Decision → Option Nat
  | .health => some 200
  | .metrics => some 200
  | .customRedirect _ => some 307
  | .customRouteError _ => some 500
  | .customPanic _ => none
  | .nomadUIRedirect _ => some 307
  | .unparseableHelp _ => some 200
  | .consulError _ => some 500
  | .singleRedirect _ => some 307
  | .noResults _ _ _ => some 404
  | .candidateList _ _ _ _ => some 200

/-- Decision.showsHostnameTips is true for the branches that call
printHostnameTips (the format-hint list). -/
def Decision.showsHostnameTips : Decision → Bool
  | .unparseableHelp _ => true
  | .noResults _ _ _ => true
  | _ => false

/-- Decision.showsQuickLinks is true for the branches that call
printQuickLinks (the Nomad and Consul UI shortcuts). -/
def Decision.showsQuickLinks : Decision → Bool
  | .unparseableHelp _ => true
  | .noResults _ _ _ => true
  | .candidateList _ _ _ _ => true
  | _ => false

/-- Decision.isCustomRedirect discriminates the 307 custom-route redirect. -/
def Decision.isCustomRedirect : Decision → Bool
  | .customRedirect _ => true
  | _ => false

/-- Decision.isCustomRouteError discriminates the 500 custom-route error page. -/
def Decision.isCustomRouteError : Decision → Bool
  | .customRouteError _ => true
  | _ => false

/-- Decision.isCustomPanic discriminates the aborted (panicked) custom-route case. -/
def Decision.isCustomPanic : Decision → Bool
  | .customPanic _ => true
  | _ => false

/-- processRoute is the body of tryRedirectRoutePath after a successful
map lookup: run redirectToCustomRoute; a returned error is rendered as
the 500 page for that key; the panic aborts the request. -/
def processRoute (req : Request) (key template : String) : Decision :=
  match redirectToCustomRoute req key template with
  | .ok u => .customRedirect u
  | .error .templateParseError => .customRouteError key
  | .error .slicePanic => .customPanic key

/-- tryRedirectRoutePath models the Go function of the same name: look the
key up in the custom routes map; when present the request is handled
(some decision), else none. -/
def tryRedirectRoutePath (cfg : Config) (req : Request) (hostnamePath : String) :
    Option Decision :=
  match routeLookup cfg.customRoutes hostnamePath with
  | some template => some (processRoute req hostnamePath template)
  | none => none

/-- tryCustomRoutesForHostname models the Go function of the same name:
first the exact key hostname ++ path, then — when the path splits into
more than two slash-separated pieces — the key hostname/firstSegment
(pathSegments[1]), and finally the bare hostname key. -/
def tryCustomRoutesForHostname (cfg : Config) (req : Request) (hostname : String) :
    Option Decision :=
  match tryRedirectRoutePath cfg req (hostname ++ req.path) with
  | some d => some d
  | none =>
    let pathSegments := goSplitSlash req.path
    match (if 2 < pathSegments.length then
             tryRedirectRoutePath cfg req (hostname ++ "/" ++ pathSegments.getD 1 "")
           else none) with
    | some d => some d
    | none => tryRedirectRoutePath cfg req hostname

/-- nomadUIUrl is the URL built by the redirect-to-Nomad-UI branch of
ServeHTTP: the request URL on the original hostname at port 4646, with
the path defaulted to the clients view carrying a search query when the
request path was empty or the bare slash. -/
def nomadUIUrl (hostname : String) (req : Request) : GoURL :=
  let u := buildUrlWithPort hostname req.url "http" 4646
  if u.path = "" ∨ u.path = "/" then
    { u with path := "/ui/clients", rawQuery := "search=" ++ hostname }
  else u

/-- addHostnameSuffix models the Go function of the same name: append the
configured cluster suffix (with any leading dot of the flag value
normalized away) to a hostname, or return the hostname unchanged when no
suffix is configured. -/
def addHostnameSuffix (cfg : Config) (hostname : String) : String :=
  if cfg.hostnameSuffix.data.length = 0 then hostname
  else hostname ++ "." ++ goTrimPre cfg.hostnameSuffix "."

/-- mkEntry is the body of the rendering loop for the multi-candidate
listing (ServeHTTP lines 206-225): each option is rendered with the
cluster suffix appended to its hostname, linked to its rebuilt URL. -/
def mkEntry (cfg : Config) (req : Request) (o : RedirectOption) : ListEntry :=
  let full := addHostnameSuffix cfg o.hostname
  ⟨o.BuildURL full req.url, full, o.port, o.tags⟩

/-- serveHTTP models Server.ServeHTTP: health and metrics short-circuits;
custom routes on the raw hostname, then on the suffix-stripped hostname;
the optional Nomad UI redirect; hostname parsing with the help page on
failure; the Consul query with an error page on failure; then one
candidate redirects, zero candidates renders the 404 page, and several
candidates render the listing. -/
def serveHTTP (cfg : Config) (consul : ConsulOracle) (req : Request) : Decision :=
  if goStartsWith (goTrimPre req.path "/") "health" then .health
  else if goStartsWith (goTrimPre req.path "/") "metrics" then .metrics
  else
    let hostname := getHostname req.host
    match tryCustomRoutesForHostname cfg req hostname with
    | some d => d
    | none =>
      match (if goEndsWith hostname ("." ++ cfg.hostnameSuffix) then
               tryCustomRoutesForHostname cfg req (goTrimSuffix hostname ("." ++ cfg.hostnameSuffix))
             else none) with
      | some d => d
      | none =>
        if cfg.redirectToNomadUI
           && (goEndsWith hostname cfg.hostnameSuffix || hostname == cfg.nomadUIHostname) then
          .nomadUIRedirect (nomadUIUrl hostname req)
        else
          let p := parseConsulAddress hostname
          if p.1 = "" then .unparseableHelp hostname
          else
            match queryConsulForHostname consul hostname with
            | .error _ => .consulError hostname
            | .ok result =>
              match result with
              | [r] => .singleRedirect (r.BuildURL hostname req.url)
              | [] => .noResults p.1 p.2 hostname
              | _ => .candidateList p.1 p.2 (result.map (mkEntry cfg req)) hostname

/-! ### Spec-side definitions used to state the claims -/

/-- pathSegmentsOf path is the list of slash-separated segments of a
request path after the leading separator: the tail of the slash split.
For an HTTP origin-form path such as /a/b this is the segment list
[a, b]. -/
def pathSegmentsOf (path : String) : List String :=
  (goSplitSlash path).tail

/-- specRouteKeys hostname path lists, in order, the route keys the spec
says are probed: the exact key hostname ++ path, then the composite key
hostname/firstPathSegment when the path has at least two segments, then
the bare hostname. -/
def specRouteKeys (hostname path : String) : List String :=
  [hostname ++ path]
  ++ (if 2 ≤ (pathSegmentsOf path).length then
        [hostname ++ "/" ++ (pathSegmentsOf path).headD ""]
      else [])
  ++ [hostname]

/-- resolveCustomRoute is the route-table resolve contract from the spec:
probe the keys of specRouteKeys in order and return the first present key
together with its template. -/
def resolveCustomRoute (routes : List (String × String)) (hostname path : String) :
    Option (String × String) :=
  (specRouteKeys hostname path).findSome? (fun k => (routeLookup routes k).map (fun t => (k, t)))

/-- lexLE is the lexicographic (hostname ascending, then port ascending)
comparison the spec requires for the candidate listing. -/
def lexLE (a b : RedirectOption) : Bool :=
  goStrLt a.hostname b.hostname
  || (a.hostname == b.hostname && decide (a.port ≤ b.port))

/-- lexSorted checks that every adjacent pair of the list satisfies
lexLE, i.e. the list is sorted by the composite (hostname, port) key. -/
def lexSorted : List RedirectOption → Bool
  | [] => true
  | [_] => true
  | a :: b :: rest => lexLE a b && lexSorted (b :: rest)

/-- dotSegment is the segmentation the parser applies to the part left of
the .service. marker, lifted out so that it can be applied to a whole
hostname without a .service. occurrence (the amended claim C5). -/
def dotSegment (s : String) : String × String :=
  if goContains s "." then
    (goTrimPre ((goSplitN2 s ".").headD "") "_", goTrimPre ((goSplitN2 s ".").getD 1 "") "_")
  else (s, "")

/-! ### Concrete fixtures for witnesses and counterexamples -/

/-- emptyConfig is the default flag configuration: no UI hostnames, no
Nomad UI redirect, no cluster suffix, no custom routes. -/
def emptyConfig : Config := ⟨"", "", false, "", []⟩

/-- oracleEmpty is a Consul catalog that answers every query with zero
services. -/
def oracleEmpty : ConsulOracle := fun _ _ => .ok []

/-- oracleFail is a Consul catalog whose every query fails. -/
def oracleFail : ConsulOracle := fun _ _ => .error .network

/-- oracleTwo answers every query with two services on distinct nodes. -/
def oracleTwo : ConsulOracle :=
  fun _ _ => .ok [⟨"n2", [], 9000⟩, ⟨"n1", ["https"], 8443⟩]

/-- oracleOne answers every query with a single service. -/
def oracleOne : ConsulOracle := fun _ _ => .ok [⟨"n1", [], 8080⟩]

/-- oracleUnsorted answers with two services whose node names descend
while their ports ascend, the shape on which the sort.Slice comparator of
main.go is not a valid order. -/
def oracleUnsorted : ConsulOracle :=
  fun _ _ => .ok [⟨"b", [], 1⟩, ⟨"a", [], 2⟩]

/-- oraclePair answers with two services in ascending node order. -/
def oraclePair : ConsulOracle :=
  fun _ _ => .ok [⟨"m1", [], 1000⟩, ⟨"m2", [], 2000⟩]

/-- cfgGraph carries the arg-substituting custom route from the spec
test scenarios. -/
def cfgGraph : Config :=
  ⟨"", "", false, "", [("h/graph", "http://grafana:2345/graph?id=$arg$&detail=1")]⟩

/-- cfgPlay carries an arg-substituting custom route whose key can match
the full request path exactly. -/
def cfgPlay : Config :=
  ⟨"", "", false, "", [("h/play", "http://play:1234/play?v=$arg$")]⟩

/-- cfgHome carries a bare-hostname custom route. -/
def cfgHome : Config :=
  ⟨"", "", false, "", [("h", "http://home:1234")]⟩

/-- cfgSuffix configures a cluster hostname suffix and nothing else. -/
def cfgSuffix : Config := ⟨"", "", false, "node.local", []⟩

/-- reqSvc is a plain request for a parseable service hostname. -/
def reqSvc : Request := ⟨"svc.service.consul", "/", ""⟩

/-! ### Helper lemmas -/

/-- insRev produces a permutation of pushing the element on the front. -/
theorem insRev_perm (less : α → α → Bool) (x : α) :
    ∀ l : List α, (insRev less x l).Perm (x :: l)
  | [] => by simp [insRev]
  | y :: ys => by
    simp only [insRev]
    split
    · exact ((insRev_perm less x ys).cons y).trans (List.Perm.swap x y ys)
    · exact List.Perm.refl _

/-- one insertion step of the modelled sort is a permutation of pushing
the element on the front. -/
theorem goSortInsert_perm (less : α → α → Bool) (s : List α) (x : α) :
    (goSortInsert less s x).Perm (x :: s) := by
  unfold goSortInsert
  exact ((List.reverse_perm _).trans (insRev_perm less x s.reverse)).trans
    ((List.reverse_perm s).cons x)

/-- folding the insertion step over a list permutes the accumulator
followed by the list. -/
theorem goSortSlice_foldl_perm (less : α → α → Bool) :
    ∀ (l acc : List α), (List.foldl (goSortInsert less) acc l).Perm (acc ++ l)
  | [], acc => by simp
  | x :: xs, acc => by
    simp only [List.foldl_cons]
    have h1 := goSortSlice_foldl_perm less xs (goSortInsert less acc x)
    have h2 : (goSortInsert less acc x ++ xs).Perm ((x :: acc) ++ xs) :=
      List.Perm.append_right xs (goSortInsert_perm less acc x)
    have h3 : ((x :: acc) ++ xs).Perm (acc ++ x :: xs) := List.perm_middle.symm
    exact h1.trans (h2.trans h3)

/-- the modelled sort.Slice returns a permutation of its input. -/
theorem goSortSlice_perm (less : α → α → Bool) (l : List α) :
    (goSortSlice less l).Perm l := by
  simpa using goSortSlice_foldl_perm less l []

/-- membership is preserved by the modelled sort.Slice. -/
theorem mem_goSortSlice (less : α → α → Bool) (l : List α) (a : α) :
    a ∈ goSortSlice less l ↔ a ∈ l :=
  (goSortSlice_perm less l).mem_iff

/-- the modelled sort.Slice preserves length. -/
theorem goSortSlice_length (less : α → α → Bool) (l : List α) :
    (goSortSlice less l).length = l.length :=
  (goSortSlice_perm less l).length_eq

/-- sorting a singleton gives the singleton back. -/
theorem goSortSlice_singleton (less : α → α → Bool) (x : α) :
    goSortSlice less [x] = [x] := by
  simp [goSortSlice, goSortInsert, insRev]

/-- tryRedirectRoutePath is the map of processRoute over the lookup
result. -/
theorem tryRedirectRoutePath_eq (cfg : Config) (req : Request) (k : String) :
    tryRedirectRoutePath cfg req k
      = (routeLookup cfg.customRoutes k).map (processRoute req k) := by
  unfold tryRedirectRoutePath
  cases routeLookup cfg.customRoutes k <;> rfl

/-- processRoute only produces the three custom-route outcomes. -/
theorem processRoute_shape (req : Request) (k t : String) :
    (processRoute req k t).isCustomRedirect = true
    ∨ (processRoute req k t).isCustomRouteError = true
    ∨ (processRoute req k t).isCustomPanic = true := by
  unfold processRoute
  rcases redirectToCustomRoute req k t with e | u
  · rcases e <;> simp [Decision.isCustomRouteError, Decision.isCustomPanic]
  · simp [Decision.isCustomRedirect]

/-- the slash split never returns the empty list. -/
theorem splitAllChar_ne_nil (sep : Char) : ∀ l : List Char, splitAllChar sep l ≠ []
  | [] => by simp [splitAllChar]
  | c :: cs => by
    simp only [splitAllChar]
    split
    · simp
    · rcases h : splitAllChar sep cs with _ | ⟨r, rs⟩ <;> simp

/-- goSplitSlash never returns the empty list. -/
theorem goSplitSlash_ne_nil (s : String) : goSplitSlash s ≠ [] := by
  unfold goSplitSlash
  rcases h : splitAllChar '/' s.data with _ | ⟨r, rs⟩
  · exact absurd h (splitAllChar_ne_nil '/' s.data)
  · simp

/-- the key-probing order of tryCustomRoutesForHostname is exactly the
spec resolve contract: first present key of specRouteKeys wins, and its
template is processed by processRoute. -/
theorem tryCustomRoutes_eq_resolve (cfg : Config) (req : Request) (hostname : String) :
    tryCustomRoutesForHostname cfg req hostname
      = (resolveCustomRoute cfg.customRoutes hostname req.path).map
          (fun kt => processRoute req kt.1 kt.2) := by
  rcases hsplit : goSplitSlash req.path with _ | ⟨a, as⟩
  · exact absurd hsplit (goSplitSlash_ne_nil req.path)
  have hgetd : ∀ d : String, as.getD 0 d = as.headD d := by
    intro d; cases as <;> rfl
  simp only [tryCustomRoutesForHostname, resolveCustomRoute, specRouteKeys, pathSegmentsOf,
    tryRedirectRoutePath_eq, hsplit, List.tail_cons, List.getD_cons_succ, hgetd,
    List.length_cons]
  by_cases hc : 2 ≤ as.length
  · rw [if_pos (show 2 < as.length + 1 by omega), if_pos hc]
    simp only [List.headD_eq_head?_getD]
    rcases h1 : routeLookup cfg.customRoutes (hostname ++ req.path) with _ | t1
    · rcases h2 : routeLookup cfg.customRoutes (hostname ++ "/" ++ as.head?.getD "") with _ | t2
      · rcases h3 : routeLookup cfg.customRoutes hostname with _ | t3 <;>
          simp [h1, h2, h3, List.findSome?_cons]
      · simp [h1, h2, List.findSome?_cons]
    · simp [h1, List.findSome?_cons]
  · rw [if_neg (show ¬ 2 < as.length + 1 by omega), if_neg hc]
    rcases h1 : routeLookup cfg.customRoutes (hostname ++ req.path) with _ | t1
    · rcases h3 : routeLookup cfg.customRoutes hostname with _ | t3 <;>
        simp [h1, h3, List.findSome?_cons]
    · simp [h1, List.findSome?_cons]

/-- a decision produced by tryCustomRoutesForHostname is one of the three
custom-route outcomes: a redirect, a template-error page, or the panic. -/
theorem tryCustomRoutesForHostname_shape (cfg : Config) (req : Request)
    (hostname : String) (d : Decision)
    (h : tryCustomRoutesForHostname cfg req hostname = some d) :
    d.isCustomRedirect = true ∨ d.isCustomRouteError = true ∨ d.isCustomPanic = true := by
  rw [tryCustomRoutes_eq_resolve] at h
  rcases hres : resolveCustomRoute cfg.customRoutes hostname req.path with _ | kt
  · rw [hres] at h; simp at h
  · rw [hres] at h
    have h2 : some (processRoute req kt.1 kt.2) = some d := h
    injection h2 with h3
    rw [← h3]
    exact processRoute_shape req kt.1 kt.2

/-- after the health and metrics short-circuits fail and both custom-route
attempts return none and the Nomad UI redirect does not trigger, ServeHTTP
is the parse-and-query stage. -/
theorem serveHTTP_query_stage (cfg : Config) (consul : ConsulOracle) (req : Request)
    (hHealth : goStartsWith (goTrimPre req.path "/") "health" = false)
    (hMetrics : goStartsWith (goTrimPre req.path "/") "metrics" = false)
    (hRoute : tryCustomRoutesForHostname cfg req (getHostname req.host) = none)
    (hRoute2 : (if goEndsWith (getHostname req.host) ("." ++ cfg.hostnameSuffix) then
                  tryCustomRoutesForHostname cfg req
                    (goTrimSuffix (getHostname req.host) ("." ++ cfg.hostnameSuffix))
                else none) = none)
    (hNomad : (cfg.redirectToNomadUI
        && (goEndsWith (getHostname req.host) cfg.hostnameSuffix
            || getHostname req.host == cfg.nomadUIHostname)) = false) :
    serveHTTP cfg consul req =
      (if (parseConsulAddress (getHostname req.host)).1 = "" then
        .unparseableHelp (getHostname req.host)
      else
        match queryConsulForHostname consul (getHostname req.host) with
        | .error _ => .consulError (getHostname req.host)
        | .ok result =>
          match result with
          | [r] => .singleRedirect (r.BuildURL (getHostname req.host) req.url)
          | [] => .noResults (parseConsulAddress (getHostname req.host)).1
              (parseConsulAddress (getHostname req.host)).2 (getHostname req.host)
          | _ => .candidateList (parseConsulAddress (getHostname req.host)).1
              (parseConsulAddress (getHostname req.host)).2
              (result.map (mkEntry cfg req)) (getHostname req.host)) := by
  unfold serveHTTP
  rw [hHealth, hMetrics]
  simp only [hRoute, hRoute2, hNomad, Bool.false_eq_true, if_false]

/-- a successful catalog answer for a hostname whose parse has a
non-empty service name makes queryConsulForHostname return the sorted
options. -/
theorem queryConsul_ok (consul : ConsulOracle) (hostname : String)
    (services : List CatalogService)
    (hParse : (parseConsulAddress hostname).1 ≠ "")
    (hQuery : consul (parseConsulAddress hostname).1 (parseConsulAddress hostname).2
        = .ok services) :
    queryConsulForHostname consul hostname
      = .ok (goSortSlice goLess (services.map mkOption)) := by
  unfold queryConsulForHostname
  rw [if_neg (fun hand => hParse hand.1), hQuery]

/-! ### Claim theorems -/

/-- C1: for every parseable service hostname (no custom route matches, the
orchestrator-UI redirect does not trigger, and the health and metrics
short-circuits do not fire), the decision of the engine is determined by
the number of candidates returned by the directory: a successful query
with 0 candidates yields the no-results page with status 404; exactly 1
candidate yields a single redirect with status 307; 2 or more candidates
yield the candidate list with status 200, and every returned candidate
appears in the rendered list. -/
theorem claim_C1 (cfg : Config) (consul : ConsulOracle) (req : Request)
    (services : List CatalogService)
    (hHealth : goStartsWith (goTrimPre req.path "/") "health" = false)
    (hMetrics : goStartsWith (goTrimPre req.path "/") "metrics" = false)
    (hRoute : tryCustomRoutesForHostname cfg req (getHostname req.host) = none)
    (hRoute2 : (if goEndsWith (getHostname req.host) ("." ++ cfg.hostnameSuffix) then
                  tryCustomRoutesForHostname cfg req
                    (goTrimSuffix (getHostname req.host) ("." ++ cfg.hostnameSuffix))
                else none) = none)
    (hNomad : (cfg.redirectToNomadUI
        && (goEndsWith (getHostname req.host) cfg.hostnameSuffix
            || getHostname req.host == cfg.nomadUIHostname)) = false)
    (hParse : (parseConsulAddress (getHostname req.host)).1 ≠ "")
    (hQuery : consul (parseConsulAddress (getHostname req.host)).1
        (parseConsulAddress (getHostname req.host)).2 = .ok services) :
    (services = [] →
      serveHTTP cfg consul req
        = .noResults (parseConsulAddress (getHostname req.host)).1
            (parseConsulAddress (getHostname req.host)).2 (getHostname req.host)
      ∧ (serveHTTP cfg consul req).status = some 404)
    ∧ (∀ svc, services = [svc] →
      serveHTTP cfg consul req
        = .singleRedirect ((mkOption svc).BuildURL (getHostname req.host) req.url)
      ∧ (serveHTTP cfg consul req).status = some 307)
    ∧ (2 ≤ services.length →
      serveHTTP cfg consul req
        = .candidateList (parseConsulAddress (getHostname req.host)).1
            (parseConsulAddress (getHostname req.host)).2
            ((goSortSlice goLess (services.map mkOption)).map (mkEntry cfg req))
            (getHostname req.host)
      ∧ (serveHTTP cfg consul req).status = some 200
      ∧ ∀ svc ∈ services,
          mkEntry cfg req (mkOption svc)
            ∈ (goSortSlice goLess (services.map mkOption)).map (mkEntry cfg req)) := by
  have hs := serveHTTP_query_stage cfg consul req hHealth hMetrics hRoute hRoute2 hNomad
  rw [if_neg hParse,
      queryConsul_ok consul (getHostname req.host) services hParse hQuery] at hs
  refine ⟨?_, ?_, ?_⟩
  · intro h0
    subst h0
    exact ⟨hs, by rw [hs]; rfl⟩
  · intro svc h1
    subst h1
    exact ⟨hs, by rw [hs]; rfl⟩
  · intro h2
    have hlen : 2 ≤ (goSortSlice goLess (services.map mkOption)).length := by
      rw [goSortSlice_length, List.length_map]; exact h2
    rcases hsort : goSortSlice goLess (services.map mkOption) with _ | ⟨x, _ | ⟨y, rest⟩⟩
    · rw [hsort] at hlen; simp at hlen
    · rw [hsort] at hlen; simp at hlen
    · rw [hsort] at hs
      have hs2 : serveHTTP cfg consul req
          = .candidateList (parseConsulAddress (getHostname req.host)).1
              (parseConsulAddress (getHostname req.host)).2
              ((x :: y :: rest).map (mkEntry cfg req)) (getHostname req.host) := hs
      refine ⟨hs2, by rw [hs2]; rfl, ?_⟩
      intro svc hmem
      rw [← hsort]
      exact List.mem_map_of_mem _ ((mem_goSortSlice _ _ _).mpr (List.mem_map_of_mem _ hmem))

/-- C1 witness: a concrete two-candidate query rendered as a sorted
candidate list containing both candidates. -/
theorem claim_C1_witness :
    (parseConsulAddress (getHostname reqSvc.host)).1 ≠ ""
    ∧ serveHTTP emptyConfig oracleTwo reqSvc
        = .candidateList "svc" ""
            [⟨⟨"https", "n1:8443", "/", ""⟩, "n1", 8443, ["https"]⟩,
             ⟨⟨"http", "n2:9000", "/", ""⟩, "n2", 9000, []⟩]
            "svc.service.consul" := by
  refine ⟨by decide, ?_⟩
  have h := (claim_C1 emptyConfig oracleTwo reqSvc
      [⟨"n2", [], 9000⟩, ⟨"n1", ["https"], 8443⟩]
      (by decide) (by decide) (by decide) (by decide) (by decide) (by decide)
      rfl).2.2 (by decide)
  exact h.1.trans (by decide)

/-- C2 (amended): for every request whose hostname matches no custom route
and does not trigger the orchestrator-UI redirect, if the address parser
reports the hostname unparseable then the response is the help page with
format hints and quick links and its status is the implicit 200 (the Go
handler writes the body without ever calling WriteHeader), never 500.
The claim as stated says 404; the counterexample below shows 200. -/
theorem claim_C2 (cfg : Config) (consul : ConsulOracle) (req : Request)
    (hHealth : goStartsWith (goTrimPre req.path "/") "health" = false)
    (hMetrics : goStartsWith (goTrimPre req.path "/") "metrics" = false)
    (hRoute : tryCustomRoutesForHostname cfg req (getHostname req.host) = none)
    (hRoute2 : (if goEndsWith (getHostname req.host) ("." ++ cfg.hostnameSuffix) then
                  tryCustomRoutesForHostname cfg req
                    (goTrimSuffix (getHostname req.host) ("." ++ cfg.hostnameSuffix))
                else none) = none)
    (hNomad : (cfg.redirectToNomadUI
        && (goEndsWith (getHostname req.host) cfg.hostnameSuffix
            || getHostname req.host == cfg.nomadUIHostname)) = false)
    (hParse : (parseConsulAddress (getHostname req.host)).1 = "") :
    serveHTTP cfg consul req = .unparseableHelp (getHostname req.host)
    ∧ (serveHTTP cfg consul req).status = some 200
    ∧ (serveHTTP cfg consul req).status ≠ some 500
    ∧ (serveHTTP cfg consul req).showsHostnameTips = true
    ∧ (serveHTTP cfg consul req).showsQuickLinks = true := by
  have hs := serveHTTP_query_stage cfg consul req hHealth hMetrics hRoute hRoute2 hNomad
  rw [if_pos hParse] at hs
  refine ⟨hs, by rw [hs]; rfl, by rw [hs]; simp [Decision.status], by rw [hs]; rfl, by rw [hs]; rfl⟩

/-- C2 witness: a concrete unparseable hostname takes the help-page branch
with implicit status 200. -/
theorem claim_C2_witness :
    (parseConsulAddress (getHostname "127.0.0.1")).1 = ""
    ∧ serveHTTP emptyConfig oracleEmpty ⟨"127.0.0.1", "/x", ""⟩
        = .unparseableHelp "127.0.0.1"
    ∧ (serveHTTP emptyConfig oracleEmpty ⟨"127.0.0.1", "/x", ""⟩).status = some 200 := by
  have h := claim_C2 emptyConfig oracleEmpty ⟨"127.0.0.1", "/x", ""⟩
    (by decide) (by decide) (by decide) (by decide) (by decide) (by decide)
  exact ⟨by decide, h.1, h.2.1⟩

/-- C2 counterexample: the claim as stated (status 404 for an unparseable
hostname) is false: the handler writes the help body without WriteHeader,
so the status is the implicit 200, not 404. -/
theorem claim_C2_counterexample :
    serveHTTP emptyConfig oracleEmpty ⟨"1.2.3.4", "/", ""⟩ = .unparseableHelp "1.2.3.4"
    ∧ (serveHTTP emptyConfig oracleEmpty ⟨"1.2.3.4", "/", ""⟩).status = some 200
    ∧ (serveHTTP emptyConfig oracleEmpty ⟨"1.2.3.4", "/", ""⟩).status ≠ some 404 := by
  exact ⟨by decide, by decide, by decide⟩

/-- C3 (amended): with the custom route table mapping h/graph to the
arg-substituting grafana template, a request for Host h and path
/graph/1234 is redirected to the URL whose query is exactly the templated
query with the arg substituted, and the original request query (range=4h)
is discarded — the Go code overwrites RawQuery with the substituted
template query, so nothing is appended after it. -/
theorem claim_C3 :
    serveHTTP cfgGraph oracleEmpty ⟨"h", "/graph/1234", ""⟩
      = .customRedirect ⟨"http", "grafana:2345", "/graph", "id=1234&detail=1"⟩
    ∧ serveHTTP cfgGraph oracleEmpty ⟨"h", "/graph/1234", "range=4h"⟩
      = .customRedirect ⟨"http", "grafana:2345", "/graph", "id=1234&detail=1"⟩ := by
  exact ⟨by decide, by decide⟩

/-- C3 counterexample: the claim as stated says the request query is
appended after the templated query, producing id=1234&detail=1&range=4h;
the code instead produces id=1234&detail=1 (the request query is lost). -/
theorem claim_C3_counterexample :
    serveHTTP cfgGraph oracleEmpty ⟨"h", "/graph/1234", "range=4h"⟩
      = .customRedirect ⟨"http", "grafana:2345", "/graph", "id=1234&detail=1"⟩
    ∧ (⟨"http", "grafana:2345", "/graph", "id=1234&detail=1"⟩ : GoURL)
      ≠ ⟨"http", "grafana:2345", "/graph", "id=1234&detail=1&range=4h"⟩ := by
  exact ⟨by decide, by decide⟩

/-- C4: the comparator passed to sort.Slice is the conjunction
hostname-less and port-less, which is false in both directions on the
pair (b,1), (a,2); the sort therefore leaves that pair in place and the
rendered candidate list is not sorted by the lexicographic
(hostname, port) key, contradicting the claim (the spec itself flags this
comparator as a defect to fix). -/
theorem claim_C4 :
    goLess ⟨"b", [], 1⟩ ⟨"a", [], 2⟩ = false
    ∧ goLess ⟨"a", [], 2⟩ ⟨"b", [], 1⟩ = false
    ∧ goSortSlice goLess [(⟨"b", [], 1⟩ : RedirectOption), ⟨"a", [], 2⟩]
        = [⟨"b", [], 1⟩, ⟨"a", [], 2⟩]
    ∧ lexSorted (goSortSlice goLess [(⟨"b", [], 1⟩ : RedirectOption), ⟨"a", [], 2⟩]) = false
    ∧ serveHTTP emptyConfig oracleUnsorted ⟨"svc2.service.consul", "/", ""⟩
        = .candidateList "svc2" ""
            [⟨⟨"http", "b:1", "/", ""⟩, "b", 1, []⟩,
             ⟨⟨"http", "a:2", "/", ""⟩, "a", 2, []⟩]
            "svc2.service.consul" := by
  exact ⟨by decide, by decide, by decide, by decide, by decide⟩

/-- C5 (amended): a hostname without a .service. split point is not
unparseable; the whole hostname is used as the left segment and the same
dot segmentation is applied to it, so parse of junk is the pair
(junk, empty port type), which is then used for a directory query. -/
theorem claim_C5 :
    (∀ h : String, goContains h ".service." = false → segmentConsulAddress h = dotSegment h)
    ∧ parseConsulAddress "junk" = ("junk", "") := by
  constructor
  · intro h hc
    have hsplit : goSplitN2 h ".service." = [h] := by
      unfold goSplitN2
      rcases hsf : splitFirstChars ".service.".data h.data with _ | pair
      · rfl
      · unfold goContains at hc
        rw [hsf] at hc
        simp at hc
    unfold segmentConsulAddress dotSegment
    rw [hsplit]
    rfl
  · decide

/-- C5 witness: the amended statement applied at a concrete hostname
without a .service. occurrence. -/
theorem claim_C5_witness :
    goContains "nodots" ".service." = false
    ∧ segmentConsulAddress "nodots" = dotSegment "nodots" :=
  ⟨by decide, claim_C5.1 "nodots" (by decide)⟩

/-- C5 counterexample: the claim as stated says every hostname without a
.service. substring is unparseable, in particular junk; the parser in
fact returns the non-empty service name junk, so the hostname is used
for a directory query. -/
theorem claim_C5_counterexample :
    goContains "junk" ".service." = false
    ∧ parseConsulAddress "junk" = ("junk", "")
    ∧ (parseConsulAddress "junk").1 ≠ "" := by
  exact ⟨by decide, by decide, by decide⟩

/-- C6: for every hostname and request path, custom-route lookup tries,
in order, the exact key hostname ++ path, then (only when the path has at
least two slash-separated segments) the composite key of hostname and the
first path segment, then the bare hostname key; the first present key
wins and its template is processed; no other keys are consulted. -/
theorem claim_C6 (cfg : Config) (req : Request) (hostname : String) :
    tryCustomRoutesForHostname cfg req hostname
      = (resolveCustomRoute cfg.customRoutes hostname req.path).map
          (fun kt => processRoute req kt.1 kt.2) :=
  tryCustomRoutes_eq_resolve cfg req hostname

/-- C7 (amended): entries of a multi-candidate listing carry each
candidate hostname with the configured cluster suffix appended, but the
single-candidate redirect instead uses the original request hostname
unchanged (the Go code passes the request hostname, not the suffixed
candidate hostname, to BuildURL in the single-candidate branch). -/
theorem claim_C7 (cfg : Config) (consul : ConsulOracle) (req : Request)
    (services : List CatalogService)
    (hHealth : goStartsWith (goTrimPre req.path "/") "health" = false)
    (hMetrics : goStartsWith (goTrimPre req.path "/") "metrics" = false)
    (hRoute : tryCustomRoutesForHostname cfg req (getHostname req.host) = none)
    (hRoute2 : (if goEndsWith (getHostname req.host) ("." ++ cfg.hostnameSuffix) then
                  tryCustomRoutesForHostname cfg req
                    (goTrimSuffix (getHostname req.host) ("." ++ cfg.hostnameSuffix))
                else none) = none)
    (hNomad : (cfg.redirectToNomadUI
        && (goEndsWith (getHostname req.host) cfg.hostnameSuffix
            || getHostname req.host == cfg.nomadUIHostname)) = false)
    (hParse : (parseConsulAddress (getHostname req.host)).1 ≠ "")
    (hQuery : consul (parseConsulAddress (getHostname req.host)).1
        (parseConsulAddress (getHostname req.host)).2 = .ok services) :
    (∀ r, goSortSlice goLess (services.map mkOption) = [r] →
      serveHTTP cfg consul req
        = .singleRedirect (buildUrlWithPort (getHostname req.host) req.url (guessScheme r.tags) r.port)
      ∧ (buildUrlWithPort (getHostname req.host) req.url (guessScheme r.tags) r.port).host
          = (if r.port ≠ 0 then getHostname req.host ++ ":" ++ toString r.port
             else getHostname req.host))
    ∧ (2 ≤ services.length →
      serveHTTP cfg consul req
        = .candidateList (parseConsulAddress (getHostname req.host)).1
            (parseConsulAddress (getHostname req.host)).2
            ((goSortSlice goLess (services.map mkOption)).map (mkEntry cfg req))
            (getHostname req.host)
      ∧ ∀ o : RedirectOption,
          (mkEntry cfg req o).fullHostname = addHostnameSuffix cfg o.hostname
          ∧ (mkEntry cfg req o).url.host
              = (if o.port ≠ 0 then addHostnameSuffix cfg o.hostname ++ ":" ++ toString o.port
                 else addHostnameSuffix cfg o.hostname)) := by
  have hs := serveHTTP_query_stage cfg consul req hHealth hMetrics hRoute hRoute2 hNomad
  rw [if_neg hParse,
      queryConsul_ok consul (getHostname req.host) services hParse hQuery] at hs
  constructor
  · intro r hsort
    rw [hsort] at hs
    exact ⟨hs, rfl⟩
  · intro h2
    have hlen : 2 ≤ (goSortSlice goLess (services.map mkOption)).length := by
      rw [goSortSlice_length, List.length_map]; exact h2
    rcases hsort : goSortSlice goLess (services.map mkOption) with _ | ⟨x, _ | ⟨y, rest⟩⟩
    · rw [hsort] at hlen; simp at hlen
    · rw [hsort] at hlen; simp at hlen
    · rw [hsort] at hs
      have hs2 : serveHTTP cfg consul req
          = .candidateList (parseConsulAddress (getHostname req.host)).1
              (parseConsulAddress (getHostname req.host)).2
              ((x :: y :: rest).map (mkEntry cfg req)) (getHostname req.host) := hs
      exact ⟨hs2, fun o => ⟨rfl, rfl⟩⟩

/-- C7 witness: a concrete two-candidate listing whose entries carry the
suffixed hostnames. -/
theorem claim_C7_witness :
    (2 ≤ ([⟨"m1", [], 1000⟩, ⟨"m2", [], 2000⟩] : List CatalogService).length)
    ∧ serveHTTP cfgSuffix oraclePair reqSvc
        = .candidateList "svc" ""
            [⟨⟨"http", "m1.node.local:1000", "/", ""⟩, "m1.node.local", 1000, []⟩,
             ⟨⟨"http", "m2.node.local:2000", "/", ""⟩, "m2.node.local", 2000, []⟩]
            "svc.service.consul" := by
  refine ⟨by decide, ?_⟩
  have h := (claim_C7 cfgSuffix oraclePair reqSvc [⟨"m1", [], 1000⟩, ⟨"m2", [], 2000⟩]
      (by decide) (by decide) (by decide) (by decide) (by decide) (by decide)
      rfl).2 (by decide)
  exact h.1.trans (by decide)

/-- C7 counterexample: the claim as stated also covers the
single-candidate redirect; there the output host is the request hostname,
not the candidate hostname with the cluster suffix appended. -/
theorem claim_C7_counterexample :
    serveHTTP cfgSuffix oracleOne reqSvc
      = .singleRedirect ⟨"http", "svc.service.consul:8080", "/", ""⟩
    ∧ addHostnameSuffix cfgSuffix "n1" = "n1.node.local"
    ∧ ("svc.service.consul:8080" : String) ≠ "n1.node.local:8080" := by
  exact ⟨by decide, by decide, by decide⟩

/-- C8: the parser never returns a successful address whose port type
contains a dot: if the segmentation produces a dotted port-type segment
the parser returns the empty (unparseable) pair, and any result with a
non-empty service name has a dot-free port type. -/
theorem claim_C8 (h : String) :
    (goContains (segmentConsulAddress h).2 "." = true → parseConsulAddress h = ("", ""))
    ∧ ((parseConsulAddress h).1 ≠ "" → goContains (parseConsulAddress h).2 "." = false) := by
  simp only [parseConsulAddress]
  by_cases hc : goContains (segmentConsulAddress h).2 "." = true
  · constructor
    · intro _
      rw [if_pos hc]
    · intro hne
      rw [if_pos hc] at hne
      exact absurd rfl hne
  · have hc2 : goContains (segmentConsulAddress h).2 "." = false := by
      cases hgc : goContains (segmentConsulAddress h).2 "."
      · rfl
      · exact absurd hgc hc
    constructor
    · intro hcc
      exact absurd hcc hc
    · intro _
      rw [if_neg hc]
      exact hc2

/-- C8 witness: a dotted-quad hostname segments into a dotted port type
and is rejected by the parser. -/
theorem claim_C8_witness :
    goContains (segmentConsulAddress "10.0.0.1").2 "." = true
    ∧ parseConsulAddress "10.0.0.1" = ("", "") :=
  ⟨by decide, (claim_C8 "10.0.0.1").1 (by decide)⟩

/-- C9: the claim says request handling never panics; but with the
arg-substituting route for key h/graph, the request Host h with path
/graph makes the trimmed path empty, the Go expression Path[1:] is an
out-of-range slice, and the handler panics (modelled as the customPanic
outcome, on which no response is written). -/
theorem claim_C9 :
    serveHTTP cfgGraph oracleEmpty ⟨"h", "/graph", ""⟩ = .customPanic "h/graph"
    ∧ redirectToCustomRoute ⟨"h", "/graph", ""⟩ "h/graph"
        "http://grafana:2345/graph?id=$arg$&detail=1" = .error .slicePanic
    ∧ (Decision.customPanic "h/graph").status = none := by
  exact ⟨by decide, by decide, by decide⟩

/-- C10 (amended): when the hostname and path match a key present in the
custom-route table, the response is decided entirely by that route — it is
a 307 redirect, a 500 template-error page, or (in the defective
arg-substitution case) a panic abort — and the engine never consults the
directory: the decision is identical under any two directory oracles. -/
theorem claim_C10 (cfg : Config) (consul consul2 : ConsulOracle) (req : Request) (d : Decision)
    (hHealth : goStartsWith (goTrimPre req.path "/") "health" = false)
    (hMetrics : goStartsWith (goTrimPre req.path "/") "metrics" = false)
    (hRoute : tryCustomRoutesForHostname cfg req (getHostname req.host) = some d) :
    serveHTTP cfg consul req = d ∧ serveHTTP cfg consul2 req = d
    ∧ (d.isCustomRedirect = true ∨ d.isCustomRouteError = true ∨ d.isCustomPanic = true) := by
  have hserve : ∀ c : ConsulOracle, serveHTTP cfg c req = d := by
    intro c
    unfold serveHTTP
    rw [hHealth, hMetrics]
    simp only [hRoute, Bool.false_eq_true, if_false]
  exact ⟨hserve consul, hserve consul2,
    tryCustomRoutesForHostname_shape cfg req (getHostname req.host) d hRoute⟩

/-- C10 witness: a matched bare-hostname route decides the request
identically under a succeeding and a failing directory oracle. -/
theorem claim_C10_witness :
    tryCustomRoutesForHostname cfgHome ⟨"h", "/foo", "key=val"⟩ "h"
      = some (.customRedirect ⟨"http", "home:1234", "/foo", "key=val"⟩)
    ∧ serveHTTP cfgHome oracleEmpty ⟨"h", "/foo", "key=val"⟩
      = .customRedirect ⟨"http", "home:1234", "/foo", "key=val"⟩
    ∧ serveHTTP cfgHome oracleFail ⟨"h", "/foo", "key=val"⟩
      = .customRedirect ⟨"http", "home:1234", "/foo", "key=val"⟩ := by
  have h := claim_C10 cfgHome oracleEmpty oracleFail ⟨"h", "/foo", "key=val"⟩
    (.customRedirect ⟨"http", "home:1234", "/foo", "key=val"⟩)
    (by decide) (by decide) (by decide)
  exact ⟨by decide, h.1, h.2.1⟩

/-- C10 counterexample: the claim as stated allows only a 307 redirect or
a 500 error page once a key matches; the arg-substitution defect produces
a third outcome, the panic abort, which is neither. -/
theorem claim_C10_counterexample :
    serveHTTP cfgPlay oracleEmpty ⟨"h", "/play", ""⟩ = .customPanic "h/play"
    ∧ (serveHTTP cfgPlay oracleEmpty ⟨"h", "/play", ""⟩).isCustomRedirect = false
    ∧ (serveHTTP cfgPlay oracleEmpty ⟨"h", "/play", ""⟩).isCustomRouteError = false := by
  exact ⟨by decide, by decide, by decide⟩

end ConsulPortRedirector
